import Mathlib

/-!
Verification of the Sagascript dictation utility (Rust sources) against its
natural-language specification, via a shallow embedding in Lean 4.

The repository contains two drafts of the application.  The namespace
`Flowdictate` embeds `src/flowdictate-tauri/src-tauri/src` (coordinator,
capture, settings store, paste); the namespace `SrcTauri` embeds
`src/src-tauri/src` (whisper backend, per-model tuning, model download).
-/

namespace Flowdictate

/-- Embeds `AppState` (`app_controller.rs` lines 14-21): the application
state machine. -/
inductive AppState where
  | idle
  | recording
  | transcribing
  | error
deriving DecidableEq, Repr

/-- Embeds `AppState::is_recording` (`app_controller.rs` lines 24-26). -/
def AppState.is_recording (s : AppState) : Bool :=
  match s with
  | .recording => true
  | _ => false

/-- Embeds `Language` (`settings/manager.rs` lines 6-15). -/
inductive Language where
  | english
  | swedish
  | norwegian
  | auto
deriving DecidableEq, Repr

/-- Embeds `WhisperModel` (`settings/manager.rs` lines 47-68): the ten
model variants of the flowdictate draft. -/
inductive WhisperModel where
  | tinyEn
  | tiny
  | baseEn
  | base
  | kbWhisperTiny
  | kbWhisperBase
  | kbWhisperSmall
  | nbWhisperTiny
  | nbWhisperBase
  | nbWhisperSmall
deriving DecidableEq, Repr

/-- Embeds `HotkeyMode` (`settings/manager.rs` lines 205-210). -/
inductive HotkeyMode where
  | pushToTalk
  | toggle
deriving DecidableEq, Repr

/-- Embeds `Settings` (`settings/manager.rs` lines 230-239). -/
structure Settings where
  language : Language
  whisper_model : WhisperModel
  hotkey_mode : HotkeyMode
  show_overlay : Bool
  auto_paste : Bool
  auto_select_model : Bool
  hotkey : String
deriving DecidableEq, Repr

/-- Embeds `Settings::default` (`settings/manager.rs` lines 241-253). -/
def Settings.default : Settings :=
  { language := .english
    whisper_model := .base
    hotkey_mode := .pushToTalk
    show_overlay := true
    auto_paste := true
    auto_select_model := true
    hotkey := "Control+Shift+Space" }

/-- Embeds `WhisperModel::recommended` (`settings/manager.rs` lines 168-175). -/
def WhisperModel.recommended (language : Language) : WhisperModel :=
  match language with
  | .english => .baseEn
  | .swedish => .kbWhisperBase
  | .norwegian => .nbWhisperBase
  | .auto => .base

/-- Embeds `Settings::effective_model` (`settings/manager.rs` lines 257-263). -/
def Settings.effective_model (s : Settings) : WhisperModel :=
  if s.auto_select_model then WhisperModel.recommended s.language
  else s.whisper_model

/-- Embeds the state-relevant fields of `AppController`
(`app_controller.rs` lines 34-45).  The audio, paste, hotkey and logging
services are modelled where the claims need them; `recording_start` is an
absolute timestamp in milliseconds. -/
structure AppController where
  state : AppState
  settings : Settings
  recording_start : Option Nat
  last_transcription : Option String
  last_error : Option String
  model_ready : Bool
deriving DecidableEq, Repr

/-- Embeds `AppController::new` (`app_controller.rs` lines 48-71). -/
def AppController.new (settings : Settings) : AppController :=
  { state := .idle
    settings := settings
    recording_start := none
    last_transcription := none
    last_error := none
    model_ready := false }

/-- Embeds `AppController::start_recording` (`app_controller.rs` lines
125-146).  `now` is the current time in milliseconds (the `Instant::now()`
stored as `recording_start`).  `start_capture` always returns `Ok` (see
`startCapture` below), so the `?` on it never propagates an error. -/
def AppController.start_recording (c : AppController) (now : Nat) : AppController :=
  if c.state ≠ .idle then c
  else { c with state := .recording, recording_start := some now, last_error := none }

/-- Embeds `AppController::handle_hotkey_down` (`app_controller.rs` lines
102-117). -/
def AppController.handle_hotkey_down (c : AppController) (now : Nat) : AppController :=
  match c.settings.hotkey_mode with
  | .pushToTalk => c.start_recording now
  | .toggle =>
    if c.state.is_recording then c
    else if c.state = .idle then c.start_recording now
    else c

/-- Embeds `AppController::should_stop_on_key_up` (`app_controller.rs`
lines 120-122). -/
def AppController.should_stop_on_key_up (c : AppController) : Bool :=
  c.settings.hotkey_mode = HotkeyMode.pushToTalk && c.state.is_recording

/-- Embeds the state effect of `AppController::stop_recording`
(`app_controller.rs` lines 149-163): the state is set to `Transcribing`
unconditionally (the captured samples are handled by the system model
below). -/
def AppController.stop_recording (c : AppController) : AppController :=
  { c with state := .transcribing }

/-- Embeds `AppController::on_transcription_success` (`app_controller.rs`
lines 166-171). -/
def AppController.on_transcription_success (c : AppController) (text : String) : AppController :=
  { c with last_transcription := some text, state := .idle }

/-- Embeds `AppController::on_transcription_error` (`app_controller.rs`
lines 174-178). -/
def AppController.on_transcription_error (c : AppController) (err : String) : AppController :=
  { c with last_error := some err, state := .idle }

/-- Embeds `AppController::cancel_recording` (`app_controller.rs` lines
189-196): only acts when the state is `Recording`. -/
def AppController.cancel_recording (c : AppController) : AppController :=
  if c.state.is_recording then { c with state := .idle }
  else c

/-- Embeds `AppController::recording_elapsed` (`app_controller.rs` lines
199-203), with `now` the current time in milliseconds. -/
def AppController.recording_elapsed (c : AppController) (now : Nat) : Nat :=
  match c.recording_start with
  | some t => now - t
  | none => 0

/-! Audio capture (`audio/capture.rs`). -/

/-- Embeds `TARGET_SAMPLE_RATE` (`audio/capture.rs` line 11). -/
def TARGET_SAMPLE_RATE : Nat := 16000

/-- Embeds `MAX_BUFFER_SAMPLES` (`audio/capture.rs` line 13): fifteen
minutes of samples at 16 kHz. -/
def MAX_BUFFER_SAMPLES : Nat := 16000 * 60 * 15

/-- Helper used to embed Rust's `slice::chunks`: consecutive sub-lists of
length `n` (the final one possibly shorter), with an explicit fuel
argument for structural termination. -/
def chunksFuel (fuel n : Nat) (xs : List Float) : List (List Float) :=
  match fuel, xs with
  | 0, _ => []
  | _, [] => []
  | fuel + 1, xs => xs.take n :: chunksFuel fuel n (xs.drop n)

/-- Embeds `data.chunks(channels as usize)` in `process_samples`. -/
def chunksOf (n : Nat) (xs : List Float) : List (List Float) :=
  chunksFuel xs.length n xs

/-- Embeds the downmix step of `process_samples` (`audio/capture.rs` lines
212-218): multi-channel frames are averaged to mono; single-channel data
is copied verbatim. -/
def downmixMono (channels : Nat) (data : List Float) : List Float :=
  if channels > 1 then
    (chunksOf channels data).map
      (fun frame => (frame.foldl (· + ·) 0.0) / (Float.ofNat channels))
  else data

/-- Embeds the nearest-neighbour resampling step of `process_samples`
(`audio/capture.rs` lines 221-232).  The Rust code computes the output
length and source indices in `f64` and casts with `as usize`; the cast is
mirrored with `Float.toUInt64.toNat` (both truncate toward zero and
saturate on non-finite input). -/
def nearestResample (device_rate : Nat) (mono : List Float) : List Float :=
  if device_rate ≠ TARGET_SAMPLE_RATE then
    let ratio : Float := Float.ofNat TARGET_SAMPLE_RATE / Float.ofNat device_rate
    let out_len : Nat := (Float.ofNat mono.length * ratio).toUInt64.toNat
    (List.range out_len).map
      (fun i =>
        let src_idx := min (Float.ofNat i / ratio).toUInt64.toNat (mono.length - 1)
        mono.getD src_idx 0.0)
  else mono

/-- Embeds the conversion pipeline of `process_samples`
(`audio/capture.rs` lines 205-232): downmix to mono, then resample to the
target rate.  This is the "incoming block" that the final append either
keeps whole or drops whole. -/
def convertBlock (channels device_rate : Nat) (data : List Float) : List Float :=
  nearestResample device_rate (downmixMono channels data)

/-- Embeds `process_samples` (`audio/capture.rs` lines 205-239): converts
the callback data and appends it to the shared buffer, unless the append
would exceed `MAX_BUFFER_SAMPLES`, in which case the whole block is
dropped. -/
def process_samples (data : List Float) (channels device_rate : Nat)
    (buffer : List Float) : List Float :=
  let samples := convertBlock channels device_rate data
  if buffer.length + samples.length ≤ MAX_BUFFER_SAMPLES then buffer ++ samples
  else buffer

/-- Embeds `DictationError` (`error.rs` lines 7-43). -/
inductive DictationError where
  | microphonePermissionDenied
  | accessibilityPermissionDenied
  | modelNotLoaded
  | transcriptionFailed (msg : String)
  | noAudioCaptured
  | apiKeyMissing
  | networkError (msg : String)
  | audioCaptureError (msg : String)
  | modelDownloadFailed (msg : String)
  | settingsError (msg : String)
  | hotkeyError (msg : String)
  | pasteError (msg : String)
deriving DecidableEq, Repr

/-- Embeds `cpal::SampleFormat` as observed by `run_capture`: the two
handled formats and everything else. -/
inductive SampleFormat where
  | f32
  | i16
  | other (name : String)
deriving DecidableEq, Repr

/-- Environment of a capture attempt: what the host audio system offers.
Each field corresponds to one fallible step of `run_capture`. -/
structure CaptureEnv where
  hasInputDevice : Bool
  defaultConfigOk : Bool
  sampleFormat : SampleFormat
  buildStreamOk : Bool
  playOk : Bool
deriving DecidableEq, Repr

/-- Embeds `run_capture` (`audio/capture.rs` lines 114-203), the body of
the dedicated capture thread: resolve the default input device, query its
config, build an input stream for the sample format, and start it.  Error
payload strings keep the static prefix of the formatted Rust message. -/
def run_capture (env : CaptureEnv) : Except DictationError Unit :=
  if !env.hasInputDevice then
    .error .microphonePermissionDenied
  else if !env.defaultConfigOk then
    .error (.audioCaptureError "Failed to get input config")
  else
    match env.sampleFormat with
    | .f32 | .i16 =>
      if !env.buildStreamOk then
        .error (.audioCaptureError "Failed to build stream")
      else if !env.playOk then
        .error (.audioCaptureError "Failed to start stream")
      else .ok ()
    | .other name =>
      .error (.audioCaptureError ("Unsupported sample format: " ++ name))

/-- Embeds `AudioCaptureService::start_capture` (`audio/capture.rs` lines
41-69).  The function clears the buffer and stop flag, spawns a thread
running `run_capture`, sleeps 50 ms and returns `Ok(())` unconditionally;
a `run_capture` failure is only logged inside the thread.  The first
component is the value returned to the caller, the second the outcome of
the spawned capture thread. -/
def start_capture (env : CaptureEnv) :
    Except DictationError Unit × Except DictationError Unit :=
  (.ok (), run_capture env)

/-- The claim C5 property as stated: `start()` returns success exactly
when the capture stream can be brought up (its error names do not occur
in this draft, so the checkable core is the failure/success
correspondence). -/
def claimC5AsStated : Prop :=
  ∀ env : CaptureEnv, (start_capture env).1 = .ok () ↔ run_capture env = .ok ()

/-! Coordinator operations (claim C1): the public state-mutating
operations of `AppController`, run in sequences. -/

/-- The coordinator operations named by the claim: hotkey down, explicit
start/stop of recording, cancel, and the two transcription outcomes.
Timed operations carry the current time in milliseconds. -/
inductive CoordinatorOp where
  | hotkeyDown (now : Nat)
  | startRec (now : Nat)
  | stopRec
  | cancel
  | transcriptionSuccess (text : String)
  | transcriptionFailed (err : String)
deriving DecidableEq, Repr

/-- Dispatches one coordinator operation to the corresponding
`AppController` method. -/
def applyOp (c : AppController) (op : CoordinatorOp) : AppController :=
  match op with
  | .hotkeyDown now => c.handle_hotkey_down now
  | .startRec now => c.start_recording now
  | .stopRec => c.stop_recording
  | .cancel => c.cancel_recording
  | .transcriptionSuccess text => c.on_transcription_success text
  | .transcriptionFailed err => c.on_transcription_error err

/-- Runs a sequence of coordinator operations. -/
def runOps (c : AppController) (ops : List CoordinatorOp) : AppController :=
  ops.foldl applyOp c

/-- Modelled from the spec (claim C1 wording and spec section 4.1): the
claimed state-transition function.  Recording starts only from `Idle`;
stop moves `Recording` to `Transcribing`; success and failure move
`Transcribing` to `Idle`; cancel moves `Recording` to `Idle` (section
4.1); every other operation/state combination leaves the state
unchanged. -/
def claimedStateStep (op : CoordinatorOp) (s : AppState) : AppState :=
  match op with
  | .hotkeyDown _ | .startRec _ => if s = .idle then .recording else s
  | .stopRec => if s = .recording then .transcribing else s
  | .cancel => if s = .recording then .idle else s
  | .transcriptionSuccess _ | .transcriptionFailed _ =>
    if s = .transcribing then .idle else s

/-- The claim C1 transition property as stated: every operation, from
every state, changes the state exactly as `claimedStateStep` says. -/
def claimC1TransitionsAsStated : Prop :=
  ∀ (c : AppController) (op : CoordinatorOp),
    (applyOp c op).state = claimedStateStep op c.state

/-- The state-transition function the code actually implements
(`app_controller.rs`): `stop_recording` moves every state to
`Transcribing`, and the two transcription callbacks move every state to
`Idle`; the remaining operations behave as in `claimedStateStep`. -/
def amendedStateStep (op : CoordinatorOp) (s : AppState) : AppState :=
  match op with
  | .hotkeyDown _ | .startRec _ => if s = .idle then .recording else s
  | .stopRec => .transcribing
  | .cancel => if s = .recording then .idle else s
  | .transcriptionSuccess _ | .transcriptionFailed _ => .idle

/-! Dictation system model (claims C2, C3): the hotkey handlers of
`main.rs` composed with the controller, the capture buffer, the async
inference task and main-thread paste dispatch. -/

/-- Embeds `MIN_RECORDING_MS` (`main.rs` lines 39-40). -/
def MIN_RECORDING_MS : Nat := 300

/-- Embeds the timing behaviour of `handle_hotkey_release` (`main.rs`
lines 319-353) in push-to-talk mode: if the coordinator should stop on
key-up and the elapsed recording time is under `MIN_RECORDING_MS`, the
handler sleeps the remaining time before stopping capture.  Returns
`none` when no stop happens, otherwise `some (slept, stopTime)` with the
milliseconds slept and the absolute time at which capture is stopped. -/
def releaseStopTiming (c : AppController) (now : Nat) : Option (Nat × Nat) :=
  if c.should_stop_on_key_up then
    let elapsed := c.recording_elapsed now
    if elapsed < MIN_RECORDING_MS then
      let remaining := MIN_RECORDING_MS - elapsed
      some (remaining, now + remaining)
    else
      some (0, now)
  else none

/-- The whole dictation pipeline state: the controller, the shared
capture buffer, whether an inference task is in flight, the engine abort
flag, and the texts dispatched to the main-thread paste service.  No code
path of the flowdictate draft ever sets the abort flag. -/
structure DictationSystem where
  ctrl : AppController
  buffer : List Float
  pending : Bool
  abortFlag : Bool
  pastes : List String
deriving Repr

/-- The events driving the dictation pipeline: hotkey press and release
(`main.rs` shortcut handler), an audio-callback block, the UI `cancel`
command (`commands.rs` lines 187-192), and completion of the spawned
inference task with its result. -/
inductive SysEvent where
  | hotkeyDown (now : Nat)
  | audioChunk (data : List Float) (channels device_rate : Nat)
  | hotkeyRelease (now : Nat)
  | cancel
  | inferenceDone (r : Except String String)
deriving Repr

/-- The initial system: a fresh controller, empty buffer, no pending
inference, abort flag clear, nothing pasted. -/
def initSystem (settings : Settings) : DictationSystem :=
  { ctrl := AppController.new settings
    buffer := []
    pending := false
    abortFlag := false
    pastes := [] }

/-- One step of the dictation pipeline, following `main.rs`:
hotkey press runs `handle_hotkey_down` (starting capture clears the
buffer); an audio block runs `process_samples` while recording; release
runs `handle_hotkey_release` (stop, empty-buffer check, spawn inference);
`cancel` runs `AppController::cancel_recording` (stopping capture takes
the buffer); inference completion pastes on success when `auto_paste` is
set and then commits the outcome to the controller. -/
def sysStep (s : DictationSystem) (e : SysEvent) : DictationSystem :=
  match e with
  | .hotkeyDown now =>
    let buffer := if s.ctrl.state = .idle then [] else s.buffer
    { s with ctrl := s.ctrl.handle_hotkey_down now, buffer := buffer }
  | .audioChunk data channels device_rate =>
    if s.ctrl.state = .recording then
      { s with buffer := process_samples data channels device_rate s.buffer }
    else s
  | .hotkeyRelease now =>
    match releaseStopTiming s.ctrl now with
    | none => s
    | some _ =>
      let audio := s.buffer
      let ctrl := s.ctrl.stop_recording
      if audio.isEmpty then
        { s with ctrl := ctrl.on_transcription_error "No audio captured", buffer := [] }
      else
        { s with ctrl := ctrl, buffer := [], pending := true }
  | .cancel =>
    let buffer := if s.ctrl.state.is_recording then [] else s.buffer
    { s with ctrl := s.ctrl.cancel_recording, buffer := buffer }
  | .inferenceDone r =>
    if s.pending then
      match r with
      | .ok text =>
        let pastes := if s.ctrl.settings.auto_paste then s.pastes ++ [text] else s.pastes
        { s with ctrl := s.ctrl.on_transcription_success text
                 pending := false, pastes := pastes }
      | .error e =>
        { s with ctrl := s.ctrl.on_transcription_error e, pending := false }
    else s

/-- Runs a sequence of system events. -/
def runSys (s : DictationSystem) (es : List SysEvent) : DictationSystem :=
  es.foldl sysStep s

/-- The claim C2 property as stated: invoking `cancel` while the
coordinator is `Transcribing` sets the abort flag, and whatever the
inference task later returns, the state ends at `Idle`,
`last_transcription` is unchanged and nothing is pasted. -/
def claimC2AsStated : Prop :=
  ∀ (s : DictationSystem), s.ctrl.state = .transcribing →
    (sysStep s .cancel).abortFlag = true ∧
    ∀ (r : Except String String),
      (runSys s [.cancel, .inferenceDone r]).ctrl.state = .idle ∧
      (runSys s [.cancel, .inferenceDone r]).ctrl.last_transcription
        = s.ctrl.last_transcription ∧
      (runSys s [.cancel, .inferenceDone r]).pastes = s.pastes

/-- A concrete reachable system state that is `Transcribing` with a
pending inference: press at t = 0, one single-channel 16 kHz audio block,
release at t = 400 ms. -/
def transcribingSystem : DictationSystem :=
  runSys (initSystem Settings.default)
    [.hotkeyDown 0, .audioChunk [0.0] 1 16000, .hotkeyRelease 400]

/-- A concrete controller that has been recording since t = 0 in
push-to-talk mode. -/
def shortPressController : AppController :=
  { AppController.new Settings.default with
      state := .recording, recording_start := some 0 }

/-! Settings store (`settings/store.rs`, claim C9).  A settings file is a
JSON object, modelled as an association list over a small JSON value
type; `none` models a file that is missing, unreadable or not valid
JSON. -/

/-- JSON values as far as the settings store observes them. -/
inductive JVal where
  | jstr (s : String)
  | jbool (b : Bool)
  | jnum (n : Int)
  | jnull
deriving DecidableEq, Repr

/-- A JSON object: keys with values.  `serde_json::Map` keeps keys
unique; `insertKey` below maintains that. -/
def JObj := List (String × JVal)
deriving DecidableEq, Repr

/-- Looks a key up in a JSON object. -/
def lookupKey (k : String) : JObj → Option JVal
  | [] => none
  | (k', v) :: rest => if k' = k then some v else lookupKey k rest

/-- Embeds `serde_json::Map::insert`: replaces the value at a key or
appends the binding. -/
def insertKey (k : String) (v : JVal) : JObj → JObj
  | [] => [(k, v)]
  | (k', v') :: rest =>
    if k' = k then (k, v) :: rest else (k', v') :: insertKey k v rest

/-- Embeds the serde encoding of `Language` (`settings/manager.rs` serde
renames "en", "sv", "no", "auto"). -/
def Language.toJson (l : Language) : JVal :=
  match l with
  | .english => .jstr "en"
  | .swedish => .jstr "sv"
  | .norwegian => .jstr "no"
  | .auto => .jstr "auto"

/-- Embeds the serde decoding of `Language`: `none` on any value that is
not one of the four tags. -/
def Language.fromJson (v : JVal) : Option Language :=
  match v with
  | .jstr "en" => some .english
  | .jstr "sv" => some .swedish
  | .jstr "no" => some .norwegian
  | .jstr "auto" => some .auto
  | _ => none

/-- Embeds the serde encoding of `WhisperModel` (serde renames of the
flowdictate draft). -/
def WhisperModel.toJson (m : WhisperModel) : JVal :=
  match m with
  | .tinyEn => .jstr "tiny.en"
  | .tiny => .jstr "tiny"
  | .baseEn => .jstr "base.en"
  | .base => .jstr "base"
  | .kbWhisperTiny => .jstr "kb-whisper-tiny"
  | .kbWhisperBase => .jstr "kb-whisper-base"
  | .kbWhisperSmall => .jstr "kb-whisper-small"
  | .nbWhisperTiny => .jstr "nb-whisper-tiny"
  | .nbWhisperBase => .jstr "nb-whisper-base"
  | .nbWhisperSmall => .jstr "nb-whisper-small"

/-- Embeds the serde decoding of `WhisperModel`. -/
def WhisperModel.fromJson (v : JVal) : Option WhisperModel :=
  match v with
  | .jstr "tiny.en" => some .tinyEn
  | .jstr "tiny" => some .tiny
  | .jstr "base.en" => some .baseEn
  | .jstr "base" => some .base
  | .jstr "kb-whisper-tiny" => some .kbWhisperTiny
  | .jstr "kb-whisper-base" => some .kbWhisperBase
  | .jstr "kb-whisper-small" => some .kbWhisperSmall
  | .jstr "nb-whisper-tiny" => some .nbWhisperTiny
  | .jstr "nb-whisper-base" => some .nbWhisperBase
  | .jstr "nb-whisper-small" => some .nbWhisperSmall
  | _ => none

/-- Embeds the serde encoding of `HotkeyMode` (renames "push",
"toggle"). -/
def HotkeyMode.toJson (m : HotkeyMode) : JVal :=
  match m with
  | .pushToTalk => .jstr "push"
  | .toggle => .jstr "toggle"

/-- Embeds the serde decoding of `HotkeyMode`. -/
def HotkeyMode.fromJson (v : JVal) : Option HotkeyMode :=
  match v with
  | .jstr "push" => some .pushToTalk
  | .jstr "toggle" => some .toggle
  | _ => none

/-- Embeds the serde decoding of a JSON boolean field. -/
def boolFromJson (v : JVal) : Option Bool :=
  match v with
  | .jbool b => some b
  | _ => none

/-- Embeds the serde decoding of a JSON string field. -/
def strFromJson (v : JVal) : Option String :=
  match v with
  | .jstr s => some s
  | _ => none

/-- Embeds `serde_json::to_value(settings)`: the JSON object holding the
seven `Settings` fields under their field names. -/
def Settings.toJson (s : Settings) : JObj :=
  [("language", s.language.toJson),
   ("whisper_model", s.whisper_model.toJson),
   ("hotkey_mode", s.hotkey_mode.toJson),
   ("show_overlay", .jbool s.show_overlay),
   ("auto_paste", .jbool s.auto_paste),
   ("auto_select_model", .jbool s.auto_select_model),
   ("hotkey", .jstr s.hotkey)]

/-- Embeds the serde behaviour of one `#[serde(default)]` field: a
missing key yields the field default, a present key must decode, and a
decode failure fails the whole struct. -/
def parseField (obj : JObj) (k : String) (dec : JVal → Option α) (dflt : α) : Option α :=
  match lookupKey k obj with
  | none => some dflt
  | some v => dec v

/-- Embeds `serde_json::from_str::<Settings>` on a parsed JSON object:
per-field defaults for missing keys, failure if any present settings key
does not decode; unknown keys are ignored. -/
def Settings.fromJson (obj : JObj) : Option Settings := do
  let d := Settings.default
  let language ← parseField obj "language" Language.fromJson d.language
  let whisper_model ← parseField obj "whisper_model" WhisperModel.fromJson d.whisper_model
  let hotkey_mode ← parseField obj "hotkey_mode" HotkeyMode.fromJson d.hotkey_mode
  let show_overlay ← parseField obj "show_overlay" boolFromJson d.show_overlay
  let auto_paste ← parseField obj "auto_paste" boolFromJson d.auto_paste
  let auto_select_model ← parseField obj "auto_select_model" boolFromJson d.auto_select_model
  let hotkey ← parseField obj "hotkey" strFromJson d.hotkey
  pure { language, whisper_model, hotkey_mode, show_overlay,
         auto_paste, auto_select_model, hotkey }

/-- Embeds `store::load` (`settings/store.rs` lines 24-30): defaults when
the file is missing or unreadable, and `unwrap_or_default` when the JSON
does not deserialize into `Settings`. -/
def store_load (file : Option JObj) : Settings :=
  match file with
  | none => Settings.default
  | some obj => (Settings.fromJson obj).getD Settings.default

/-- Embeds the merge-and-write of `store::save` (`settings/store.rs`
lines 35-70): read the existing file (an unreadable or invalid file
becomes the empty map), insert every serialized settings field, and write
the result atomically.  Returns the new file content. -/
def store_save (settings : Settings) (file : Option JObj) : JObj :=
  let map := file.getD []
  settings.toJson.foldl (fun m kv => insertKey kv.1 kv.2 m) map

/-- The JSON keys owned by `Settings`. -/
def settingsKeys : List String :=
  ["language", "whisper_model", "hotkey_mode", "show_overlay",
   "auto_paste", "auto_select_model", "hotkey"]

/-! Paste service (`paste/service.rs`, claim C10). -/

/-- The world as the paste service sees it: the system clipboard (with
availability), the macOS accessibility permission, and whether the input
simulator can be created and the three key events succeed. -/
structure PasteWorld where
  clipboardOk : Bool
  clipboardText : Option String
  accessibilityTrusted : Bool
  enigoOk : Bool
  keystrokesOk : Bool
deriving DecidableEq, Repr

/-- Observable side effects of a `paste` call, in order. -/
inductive PasteEffect where
  | setClipboard (text : String)
  | requestAccessibility
  | pasteKeystroke
  | scheduleRestore (saved : Option String)
deriving DecidableEq, Repr

/-- Embeds `simulate_paste` (`paste/service.rs` lines 64-89): create the
input simulator and synthesize the modifier+V chord. -/
def simulate_paste (w : PasteWorld) : Except DictationError Unit :=
  if !w.enigoOk then
    .error (.pasteError "Failed to create input simulator")
  else if !w.keystrokesOk then
    .error (.pasteError "Key press failed")
  else .ok ()

/-- Embeds `PasteService::paste` (`paste/service.rs` lines 18-61) on
macOS: empty text returns `Ok` immediately; otherwise save the clipboard,
set the new text, gate on accessibility (prompting and failing if
untrusted), synthesize the paste keystroke, and schedule the clipboard
restore after 100 ms.  Returns the result, the world after the call, and
the effects performed in order. -/
def paste (w : PasteWorld) (text : String) :
    Except DictationError Unit × PasteWorld × List PasteEffect :=
  if text.isEmpty then (.ok (), w, [])
  else if !w.clipboardOk then
    (.error (.pasteError "Clipboard error"), w, [])
  else
    let saved := w.clipboardText
    let w := { w with clipboardText := some text }
    let effects := [PasteEffect.setClipboard text]
    if !w.accessibilityTrusted then
      (.error .accessibilityPermissionDenied, w,
        effects ++ [.requestAccessibility])
    else
      match simulate_paste w with
      | .error e => (.error e, w, effects)
      | .ok () =>
        (.ok (), w, effects ++ [.pasteKeystroke, .scheduleRestore saved])

end Flowdictate

namespace SrcTauri

/-- Embeds `Language` of the src-tauri draft (`settings/manager.rs` lines
6-16). -/
inductive Language where
  | english
  | swedish
  | norwegian
  | auto
deriving DecidableEq, Repr

/-- Embeds `Language::whisper_code` (`settings/manager.rs` lines
29-36). -/
def Language.whisper_code (l : Language) : Option String :=
  match l with
  | .english => some "en"
  | .swedish => some "sv"
  | .norwegian => some "no"
  | .auto => none

/-- Embeds `WhisperModel` of the src-tauri draft (`settings/manager.rs`
lines 42-82): nineteen model variants. -/
inductive WhisperModel where
  | tinyEn
  | tiny
  | baseEn
  | base
  | kbWhisperTiny
  | kbWhisperBase
  | kbWhisperSmall
  | kbWhisperMedium
  | kbWhisperLarge
  | nbWhisperTiny
  | nbWhisperBase
  | nbWhisperSmall
  | nbWhisperMedium
  | nbWhisperLarge
  | smallEn
  | small
  | mediumEn
  | medium
  | largeV3Turbo
deriving DecidableEq, Repr

/-- Embeds `WhisperModel::no_speech_threshold` (`settings/manager.rs`
lines 153-163).  The `f32` values 0.0 and 0.3 are represented exactly as
rationals; `small.en` gets the fully disabled filter, the medium/large
English arm and the catch-all arm both give 0.3. -/
def WhisperModel.no_speech_threshold (m : WhisperModel) : ℚ :=
  match m with
  | .smallEn => 0
  | .mediumEn | .medium | .largeV3Turbo => 3 / 10
  | _ => 3 / 10

/-- Embeds `DictationError` of the src-tauri draft (`error.rs` lines
7-43). -/
inductive DictationError where
  | microphonePermissionDenied
  | accessibilityPermissionDenied
  | modelNotLoaded
  | transcriptionFailed (msg : String)
  | noAudioCaptured
  | audioCaptureError (msg : String)
  | modelDownloadFailed (msg : String)
  | settingsError (msg : String)
  | hotkeyError (msg : String)
  | pasteError (msg : String)
  | fileDecodeError (msg : String)
  | unsupportedFormat (msg : String)
deriving DecidableEq, Repr

/-- Embeds `whisper_rs::FullParams` as configured by
`transcribe_sync_with_progress` (`whisper_backend.rs` lines 135-146).
Temperatures and the no-speech threshold are exact rationals. -/
structure FullParams where
  strategyBestOf : Nat
  language : Option String
  n_threads : Nat
  temperature : ℚ
  temperature_inc : ℚ
  translate : Bool
  no_timestamps : Bool
  print_progress : Bool
  print_realtime : Bool
  no_speech_thold : ℚ
  suppress_blank : Bool
deriving DecidableEq, Repr

/-- Embeds the parameter preparation of `transcribe_sync_with_progress`
(`whisper_backend.rs` lines 132-146): greedy sampling with best-of 1, the
whisper code of the language, half the logical CPUs (at least one) as
thread count, temperature 0.0 with 0.2 fallback increments, timestamps
off, blank suppression on, and the model's per-model no-speech
threshold. -/
def buildFullParams (model : WhisperModel) (language : Language) (nCpus : Nat) :
    FullParams :=
  { strategyBestOf := 1
    language := language.whisper_code
    n_threads := max (nCpus / 2) 1
    temperature := 0
    temperature_inc := 2 / 10
    translate := false
    no_timestamps := true
    print_progress := false
    print_realtime := false
    no_speech_thold := model.no_speech_threshold
    suppress_blank := true }

/-- The mutable engine state of `WhisperBackend` (`whisper_backend.rs`
lines 17-24): the loaded context, the loaded model tag, and the atomic
abort flag. -/
structure WhisperBackendState where
  hasContext : Bool
  loaded_model : Option WhisperModel
  abort_flag : Bool
deriving DecidableEq, Repr

/-- The outcome the whisper library produces for one inference: the
result of `ctx.create_state()`, and the result of `state.full` with the
decoded text of each segment (`none` for a segment whose handle or UTF-8
decoding fails and which is therefore skipped). -/
structure InferenceOutcome where
  create_state : Except String Unit
  full : Except String (List (Option String))
deriving Repr

/-- Helper for `strTrim`: drops leading whitespace characters. -/
def trimLeftChars : List Char → List Char
  | [] => []
  | c :: cs => if c.isWhitespace then trimLeftChars cs else c :: cs

/-- Embeds Rust's `str::trim` (used on the final transcript): removes
whitespace from both ends of the string, as an executable recursion over
the character list. -/
def strTrim (s : String) : String :=
  ⟨(trimLeftChars (trimLeftChars s.data).reverse).reverse⟩

/-- Embeds the segment-concatenation loop of
`transcribe_sync_with_progress` (`whisper_backend.rs` lines 170-179). -/
def concatSegments (segments : List (Option String)) : String :=
  segments.foldl
    (fun transcript seg =>
      match seg with
      | some text => transcript ++ text
      | none => transcript)
    ""

/-- Embeds `transcribe_sync_with_progress` (`whisper_backend.rs` lines
113-184): reject an empty buffer, require a loaded context and model,
build the parameters, clear the abort flag, run inference through the
library (`outcome`), and return the trimmed concatenation of the decoded
segments.  Returns the result, the engine state after the call, and the
parameters handed to the library (`none` when inference was never
reached). -/
def transcribe_sync_with_progress (st : WhisperBackendState)
    (audio : List Float) (language : Language) (nCpus : Nat)
    (outcome : InferenceOutcome) :
    Except DictationError String × WhisperBackendState × Option FullParams :=
  if audio.isEmpty then
    (.error .noAudioCaptured, st, none)
  else if !st.hasContext then
    (.error .modelNotLoaded, st, none)
  else
    match st.loaded_model with
    | none => (.error .modelNotLoaded, st, none)
    | some model =>
      let params := buildFullParams model language nCpus
      let st := { st with abort_flag := false }
      match outcome.create_state with
      | .error e =>
        (.error (.transcriptionFailed ("Failed to create whisper state: " ++ e)),
          st, some params)
      | .ok () =>
        match outcome.full with
        | .error e =>
          (.error (.transcriptionFailed ("Whisper inference failed: " ++ e)),
            st, some params)
        | .ok segments =>
          (.ok (strTrim (concatSegments segments)), st, some params)

/-! Model download (`transcription/model.rs`, claim C8). -/

/-- The on-disk state the download routine manipulates: whether the final
model file exists, whether the `.tmp` file exists, and the bytes written
to the `.tmp` file so far. -/
structure ModelFs where
  finalPresent : Bool
  tmpPresent : Bool
  tmpContent : List Nat
deriving DecidableEq, Repr

/-- Environment of one `download_model` run: the outcome of each fallible
step.  `chunks` is the HTTP body stream, each element a chunk of bytes or
a stream error; `writeFailAt` makes the write of the chunk with that
index fail. -/
structure DownloadEnv where
  createDirOk : Bool
  sendOk : Bool
  statusSuccess : Bool
  contentLength : Option Nat
  chunks : List (Except String (List Nat))
  createFileOk : Bool
  writeFailAt : Option Nat
  flushOk : Bool
  renameOk : Bool
deriving Repr

/-- Embeds the chunk-streaming loop of `download_model`
(`transcription/model.rs` lines 97-105): each successful chunk is written
to the `.tmp` file, the running total is advanced, and the progress
callback is invoked with `(downloaded, total)`; a stream error or a write
error aborts the loop with `ModelDownloadFailed`.  Returns the result,
the filesystem, and the progress calls in order. -/
def streamChunks (chunks : List (Except String (List Nat)))
    (writeFailAt : Option Nat) (total downloaded : Nat) (fs : ModelFs) :
    Except DictationError Unit × ModelFs × List (Nat × Nat) :=
  match chunks with
  | [] => (.ok (), fs, [])
  | .error _ :: _ => (.error (.modelDownloadFailed "Download error"), fs, [])
  | .ok chunk :: rest =>
    if writeFailAt = some 0 then
      (.error (.modelDownloadFailed "Write error"), fs, [])
    else
      let fs := { fs with tmpContent := fs.tmpContent ++ chunk }
      let downloaded := downloaded + chunk.length
      let (r, fs', progress) :=
        streamChunks rest (writeFailAt.map (· - 1)) total downloaded fs
      (r, fs', (downloaded, total) :: progress)

/-- Embeds `download_model` (`transcription/model.rs` lines 45-119): if
the model file is already present return immediately; otherwise create
the directory, send the HTTP request, check the status, create the
`.tmp` file, stream the body into it while reporting progress, flush, and
atomically rename `.tmp` to the final filename.  Returns the result, the
filesystem after the call, and the progress calls in order. -/
def download_model (env : DownloadEnv) (fs : ModelFs) :
    Except DictationError Unit × ModelFs × List (Nat × Nat) :=
  if fs.finalPresent then (.ok (), fs, [])
  else if !env.createDirOk then
    (.error (.modelDownloadFailed "Failed to create models directory"), fs, [])
  else if !env.sendOk then
    (.error (.modelDownloadFailed "Download failed"), fs, [])
  else if !env.statusSuccess then
    (.error (.modelDownloadFailed "HTTP error"), fs, [])
  else if !env.createFileOk then
    (.error (.modelDownloadFailed "Failed to create temp file"), fs, [])
  else
    let total := env.contentLength.getD 0
    let fs := { fs with tmpPresent := true, tmpContent := [] }
    match streamChunks env.chunks env.writeFailAt total 0 fs with
    | (.error e, fs', progress) => (.error e, fs', progress)
    | (.ok (), fs', progress) =>
      if !env.flushOk then
        (.error (.modelDownloadFailed "Flush error"), fs', progress)
      else if !env.renameOk then
        (.error (.modelDownloadFailed "Failed to rename temp file"), fs', progress)
      else
        (.ok (), { fs' with finalPresent := true, tmpPresent := false,
                            tmpContent := [] }, progress)

/-- The cumulative progress trace the claim describes: after each chunk,
`(bytes downloaded so far, total)`. -/
def expectedProgress (total downloaded : Nat) : List (List Nat) → List (Nat × Nat)
  | [] => []
  | chunk :: rest =>
    (downloaded + chunk.length, total) ::
      expectedProgress total (downloaded + chunk.length) rest

/-- The claim C8 property as stated, for the failure half: starting from
a filesystem where neither the final file nor the `.tmp` file exists, any
failing run returns `ModelDownloadFailed`, never creates the final file,
and leaves the `.tmp` file behind. -/
def claimC8FailureAsStated : Prop :=
  ∀ (env : DownloadEnv) (fs : ModelFs),
    fs.finalPresent = false → fs.tmpPresent = false →
    ∀ e, (download_model env fs).1 = .error e →
      (∃ msg, e = .modelDownloadFailed msg) ∧
      (download_model env fs).2.1.finalPresent = false ∧
      (download_model env fs).2.1.tmpPresent = true

end SrcTauri

/-! Theorems.  One theorem per claim of the specification, with
counterexamples and witnesses where the claim status requires them. -/

namespace Flowdictate

/-- Claim C1, counterexample to the claim as stated: `stop_recording`
invoked in `Idle` moves the state to `Transcribing` (the UI command
`stop_and_transcribe` calls it without a state guard), whereas the
claimed transition relation leaves every non-`Recording` state
unchanged. -/
theorem flowdictate_C1_counterexample :
    ¬ claimC1TransitionsAsStated ∧
    (applyOp (AppController.new Settings.default) .stopRec).state = .transcribing ∧
    claimedStateStep .stopRec (AppController.new Settings.default).state = .idle := by
  refine ⟨?_, rfl, rfl⟩
  intro h
  have hc := h (AppController.new Settings.default) .stopRec
  exact AppState.noConfusion hc

/-- Claim C1 (amended): the coordinator state is always one of the four
states `Idle`, `Recording`, `Transcribing`, `Error`; the initial state is
`Idle`; hotkey-down and start-recording move `Idle` to `Recording` and
leave every other state unchanged; cancel moves `Recording` to `Idle` and
leaves every other state unchanged; stop-recording moves every state to
`Transcribing`; transcription success and failure move every state to
`Idle`. -/
theorem flowdictate_C1_state_machine :
    (∀ settings : Settings, (AppController.new settings).state = .idle) ∧
    (∀ (c : AppController) (op : CoordinatorOp),
      (applyOp c op).state = amendedStateStep op c.state) ∧
    (∀ (c : AppController) (ops : List CoordinatorOp),
      (runOps c ops).state = .idle ∨ (runOps c ops).state = .recording ∨
      (runOps c ops).state = .transcribing ∨ (runOps c ops).state = .error) := by
  refine ⟨fun _ => rfl, ?_, ?_⟩
  · intro c op
    cases op <;>
      cases hm : c.settings.hotkey_mode <;>
      cases hs : c.state <;>
        simp [applyOp, amendedStateStep, AppController.handle_hotkey_down,
          AppController.start_recording, AppController.stop_recording,
          AppController.cancel_recording, AppController.on_transcription_success,
          AppController.on_transcription_error, AppState.is_recording, hm, hs]
  · intro c ops
    cases h : (runOps c ops).state <;> simp

end Flowdictate

namespace Flowdictate

/-- Claim C2, counterexample to the claim as stated: from the reachable
state `transcribingSystem` (press, one audio block, release), invoking
`cancel` while `Transcribing` does not set the abort flag, and when the
inference task then returns `Ok "hello"`, `last_transcription` is set and
a paste is dispatched. -/
theorem flowdictate_C2_counterexample : ¬ claimC2AsStated := by
  intro h
  have h2 := (h transcribingSystem rfl).2 (Except.ok "hello")
  have hp := h2.2.2
  have hl : (runSys transcribingSystem
      [.cancel, .inferenceDone (Except.ok "hello")]).pastes = ["hello"] := rfl
  have hr : transcribingSystem.pastes = [] := rfl
  rw [hl, hr] at hp
  exact List.noConfusion hp

/-- Claim C2 (amended): `cancel()` invoked while the coordinator is
`Transcribing` is a complete no-op — no abort flag is set and the system
is unchanged; the state does return to `Idle` when the inference task
finishes, but its outcome is then committed normally: on success
`last_transcription` is updated and, when `auto_paste` is enabled, a
paste of the result is dispatched. -/
theorem flowdictate_C2_cancel_noop :
    (∀ s : DictationSystem, s.ctrl.state = .transcribing →
      sysStep s .cancel = s) ∧
    (∀ (s : DictationSystem) (r : Except String String), s.pending = true →
      (sysStep s (.inferenceDone r)).ctrl.state = .idle ∧
      (sysStep s (.inferenceDone r)).pending = false) ∧
    (∀ (s : DictationSystem) (t : String), s.pending = true →
      s.ctrl.settings.auto_paste = true →
      (sysStep s (.inferenceDone (.ok t))).pastes = s.pastes ++ [t] ∧
      (sysStep s (.inferenceDone (.ok t))).ctrl.last_transcription = some t) := by
  refine ⟨?_, ?_, ?_⟩
  · intro s hs
    simp [sysStep, AppController.cancel_recording, AppState.is_recording, hs]
  · intro s r hp
    cases r <;>
      simp [sysStep, AppController.on_transcription_success,
        AppController.on_transcription_error, hp]
  · intro s t hp ha
    simp [sysStep, AppController.on_transcription_success, hp, ha]

/-- Witness for claim C2's amended theorem at the concrete reachable
state `transcribingSystem`. -/
theorem flowdictate_C2_witness :
    sysStep transcribingSystem .cancel = transcribingSystem ∧
    (sysStep transcribingSystem (.inferenceDone (.ok "hi"))).ctrl.state = .idle ∧
    (sysStep transcribingSystem (.inferenceDone (.ok "hi"))).pastes = ["hi"] := by
  refine ⟨flowdictate_C2_cancel_noop.1 transcribingSystem rfl,
    (flowdictate_C2_cancel_noop.2.1 transcribingSystem (.ok "hi") rfl).1, ?_⟩
  have := (flowdictate_C2_cancel_noop.2.2 transcribingSystem "hi" rfl rfl).1
  simpa using this

end Flowdictate

namespace Flowdictate

/-- Claim C3 (confirmed): in push-to-talk mode, when the hotkey release
arrives while `Recording` and fewer than `MIN_RECORDING_MS` milliseconds
have elapsed since recording began, `handle_hotkey_release` sleeps the
remaining `MIN_RECORDING_MS - elapsed` milliseconds before stopping
capture, and whenever a stop happens the recording is at least
`MIN_RECORDING_MS` milliseconds long by the time capture stops. -/
theorem flowdictate_C3_min_duration :
    ∀ (c : AppController) (now t0 : Nat),
      c.settings.hotkey_mode = .pushToTalk → c.state = .recording →
      c.recording_start = some t0 → t0 ≤ now →
      (now - t0 < MIN_RECORDING_MS →
        releaseStopTiming c now =
          some (MIN_RECORDING_MS - (now - t0),
                now + (MIN_RECORDING_MS - (now - t0)))) ∧
      (∀ slept stop, releaseStopTiming c now = some (slept, stop) →
        MIN_RECORDING_MS ≤ stop - t0) := by
  intro c now t0 hm hs hr hle
  have hstop : c.should_stop_on_key_up = true := by
    simp [AppController.should_stop_on_key_up, AppState.is_recording, hm, hs]
  have helapsed : c.recording_elapsed now = now - t0 := by
    simp [AppController.recording_elapsed, hr]
  constructor
  · intro hshort
    simp [releaseStopTiming, hstop, helapsed, hshort]
  · intro slept stop hsome
    rw [releaseStopTiming, if_pos hstop, helapsed] at hsome
    by_cases hshort : now - t0 < MIN_RECORDING_MS
    · rw [if_pos hshort] at hsome
      simp only [Option.some.injEq, Prod.mk.injEq] at hsome
      omega
    · rw [if_neg hshort] at hsome
      simp only [Option.some.injEq, Prod.mk.injEq] at hsome
      omega

/-- Witness for claim C3 at a concrete short press: recording started at
t = 0, release at t = 50 ms; the handler sleeps 250 ms and capture stops
at t = 300 ms. -/
theorem flowdictate_C3_witness :
    releaseStopTiming shortPressController 50 = some (250, 300) := by
  have h := (flowdictate_C3_min_duration shortPressController 50 0
    rfl rfl rfl (by omega)).1 (by decide)
  simpa using h

end Flowdictate

namespace Flowdictate

/-- One audio-callback append never grows the buffer past
`MAX_BUFFER_SAMPLES`. -/
theorem process_samples_length_le (data : List Float) (channels device_rate : Nat)
    (buffer : List Float) (h : buffer.length ≤ MAX_BUFFER_SAMPLES) :
    (process_samples data channels device_rate buffer).length ≤ MAX_BUFFER_SAMPLES := by
  by_cases h2 : buffer.length + (convertBlock channels device_rate data).length
      ≤ MAX_BUFFER_SAMPLES
  · simp [process_samples, h2]
  · simpa [process_samples, h2] using h

/-- Claim C4 (confirmed): for every sequence of audio-callback appends
starting from the empty buffer, the capture buffer never exceeds
`MAX_BUFFER_SAMPLES` (14,400,000 samples); and each incoming block is
either appended whole (when it fits under the cap) or dropped whole (the
buffer is unchanged), never partially applied. -/
theorem flowdictate_C4_buffer_bound :
    (∀ blocks : List (List Float × Nat × Nat),
      (blocks.foldl
        (fun buffer b => process_samples b.1 b.2.1 b.2.2 buffer) []).length
        ≤ MAX_BUFFER_SAMPLES) ∧
    (∀ (data : List Float) (channels device_rate : Nat) (buffer : List Float),
      (buffer.length + (convertBlock channels device_rate data).length
          ≤ MAX_BUFFER_SAMPLES ∧
        process_samples data channels device_rate buffer
          = buffer ++ convertBlock channels device_rate data) ∨
      (MAX_BUFFER_SAMPLES
          < buffer.length + (convertBlock channels device_rate data).length ∧
        process_samples data channels device_rate buffer = buffer)) := by
  constructor
  · intro blocks
    suffices h : ∀ (bs : List (List Float × Nat × Nat)) (buffer : List Float),
        buffer.length ≤ MAX_BUFFER_SAMPLES →
        (bs.foldl (fun buffer b => process_samples b.1 b.2.1 b.2.2 buffer)
          buffer).length ≤ MAX_BUFFER_SAMPLES by
      exact h blocks [] (by simp)
    intro bs
    induction bs with
    | nil => intro buffer h; simpa using h
    | cons b rest ih =>
      intro buffer h
      exact ih _ (process_samples_length_le b.1 b.2.1 b.2.2 buffer h)
  · intro data channels device_rate buffer
    by_cases h : buffer.length + (convertBlock channels device_rate data).length
        ≤ MAX_BUFFER_SAMPLES
    · exact Or.inl ⟨h, by simp [process_samples, h]⟩
    · exact Or.inr ⟨by omega, by simp [process_samples, h]⟩

/-- Witness for claim C4's helper-level hypothesis at a concrete input:
appending a single-channel 16 kHz block of one sample to the empty buffer
stays within the cap. -/
theorem flowdictate_C4_witness :
    (process_samples [0.0] 1 16000 []).length ≤ MAX_BUFFER_SAMPLES := by
  have h := flowdictate_C4_buffer_bound.1 [([0.0], 1, 16000)]
  simpa using h

end Flowdictate

namespace Flowdictate

/-- Claim C5, counterexample to the claim as stated: with no default
input device, `start_capture` still returns `Ok(())` (the failure is only
observed and logged inside the spawned capture thread), so `start()` does
not fail exactly when the stream cannot be brought up.  The claimed error
names `NoInputDevice`, `UnsupportedSampleFormat` and `StreamBuildFailed`
do not occur in this draft at all. -/
theorem flowdictate_C5_counterexample :
    ¬ claimC5AsStated ∧
    (start_capture ⟨false, true, .f32, true, true⟩).1 = .ok () ∧
    run_capture ⟨false, true, .f32, true, true⟩
      = .error .microphonePermissionDenied := by
  refine ⟨?_, rfl, rfl⟩
  intro h
  have hc := (h ⟨false, true, .f32, true, true⟩).mp rfl
  exact Except.noConfusion hc

/-- Claim C5 (amended): `start_capture` returns `Ok(())` for every
environment — bring-up failures are detected only inside the spawned
capture thread, whose `run_capture` body fails with
`MicrophonePermissionDenied` when there is no default input device and
with `AudioCaptureError` when the device config cannot be read, the
sample format is not F32 or I16, or the stream cannot be built or
started; `run_capture` succeeds exactly when the stream comes up. -/
theorem flowdictate_C5_start_capture :
    (∀ env : CaptureEnv, (start_capture env).1 = .ok () ∧
      (start_capture env).2 = run_capture env) ∧
    (∀ env : CaptureEnv, env.hasInputDevice = false →
      run_capture env = .error .microphonePermissionDenied) ∧
    (∀ env : CaptureEnv, env.hasInputDevice = true →
      env.defaultConfigOk = false →
      run_capture env = .error (.audioCaptureError "Failed to get input config")) ∧
    (∀ (env : CaptureEnv) (name : String), env.hasInputDevice = true →
      env.defaultConfigOk = true → env.sampleFormat = .other name →
      run_capture env
        = .error (.audioCaptureError ("Unsupported sample format: " ++ name))) ∧
    (∀ env : CaptureEnv, env.hasInputDevice = true →
      env.defaultConfigOk = true →
      (env.sampleFormat = .f32 ∨ env.sampleFormat = .i16) →
      env.buildStreamOk = false →
      run_capture env = .error (.audioCaptureError "Failed to build stream")) ∧
    (∀ env : CaptureEnv, env.hasInputDevice = true →
      env.defaultConfigOk = true →
      (env.sampleFormat = .f32 ∨ env.sampleFormat = .i16) →
      env.buildStreamOk = true → env.playOk = false →
      run_capture env = .error (.audioCaptureError "Failed to start stream")) ∧
    (∀ env : CaptureEnv, env.hasInputDevice = true →
      env.defaultConfigOk = true →
      (env.sampleFormat = .f32 ∨ env.sampleFormat = .i16) →
      env.buildStreamOk = true → env.playOk = true →
      run_capture env = .ok ()) := by
  refine ⟨fun env => ⟨rfl, rfl⟩, ?_, ?_, ?_, ?_, ?_, ?_⟩
  · intro env h
    simp [run_capture, h]
  · intro env h1 h2
    simp [run_capture, h1, h2]
  · intro env name h1 h2 h3
    simp [run_capture, h1, h2, h3]
  · intro env h1 h2 h3 h4
    rcases h3 with h3 | h3 <;> simp [run_capture, h1, h2, h3, h4]
  · intro env h1 h2 h3 h4 h5
    rcases h3 with h3 | h3 <;> simp [run_capture, h1, h2, h3, h4, h5]
  · intro env h1 h2 h3 h4 h5
    rcases h3 with h3 | h3 <;> simp [run_capture, h1, h2, h3, h4, h5]

/-- Witness for claim C5's amended theorem at concrete environments: a
missing device fails in the capture thread, and a healthy F32 device at
any rate starts successfully while `start_capture` reports `Ok` in both
cases. -/
theorem flowdictate_C5_witness :
    (start_capture ⟨false, true, .f32, true, true⟩).1 = .ok () ∧
    run_capture ⟨false, true, .f32, true, true⟩
      = .error .microphonePermissionDenied ∧
    run_capture ⟨true, true, .f32, true, true⟩ = .ok () := by
  refine ⟨(flowdictate_C5_start_capture.1 ⟨false, true, .f32, true, true⟩).1,
    flowdictate_C5_start_capture.2.1 ⟨false, true, .f32, true, true⟩ rfl,
    flowdictate_C5_start_capture.2.2.2.2.2.2 ⟨true, true, .f32, true, true⟩
      rfl rfl (Or.inl rfl) rfl rfl⟩

end Flowdictate


namespace SrcTauri

/-- Claim C6 (confirmed): `transcribe_sync_with_progress` fails with
`NoAudioCaptured` exactly when the audio buffer is empty; with a
non-empty buffer it fails with `ModelNotLoaded` when no context or no
model tag is loaded; whenever the guards pass the abort flag is reset to
false before inference; and on success the result is the concatenation of
the decoded output segments with surrounding whitespace trimmed. -/
theorem srctauri_C6_transcribe :
    (∀ (st : WhisperBackendState) (audio : List Float) (language : Language)
        (nCpus : Nat) (outcome : InferenceOutcome),
      (transcribe_sync_with_progress st audio language nCpus outcome).1
          = .error .noAudioCaptured ↔ audio = []) ∧
    (∀ (st : WhisperBackendState) (audio : List Float) (language : Language)
        (nCpus : Nat) (outcome : InferenceOutcome),
      audio ≠ [] → (st.hasContext = false ∨ st.loaded_model = none) →
      (transcribe_sync_with_progress st audio language nCpus outcome).1
        = .error .modelNotLoaded) ∧
    (∀ (st : WhisperBackendState) (audio : List Float) (language : Language)
        (nCpus : Nat) (outcome : InferenceOutcome) (m : WhisperModel),
      audio ≠ [] → st.hasContext = true → st.loaded_model = some m →
      (transcribe_sync_with_progress st audio language nCpus outcome).2.1.abort_flag
        = false) ∧
    (∀ (st : WhisperBackendState) (audio : List Float) (language : Language)
        (nCpus : Nat) (outcome : InferenceOutcome) (m : WhisperModel)
        (segments : List (Option String)),
      audio ≠ [] → st.hasContext = true → st.loaded_model = some m →
      outcome.create_state = .ok () → outcome.full = .ok segments →
      (transcribe_sync_with_progress st audio language nCpus outcome).1
        = .ok (strTrim (concatSegments segments))) := by
  refine ⟨?_, ?_, ?_, ?_⟩
  · intro st audio language nCpus outcome
    constructor
    · intro h
      cases audio with
      | nil => rfl
      | cons a rest =>
        exfalso
        rcases st with ⟨hasCtx, lm, af⟩
        rcases outcome with ⟨cs, fl⟩
        rcases cs with e | u
        · cases hasCtx <;> cases lm <;>
            simp [transcribe_sync_with_progress] at h
        · cases u
          rcases fl with e2 | segs <;> cases hasCtx <;> cases lm <;>
            simp [transcribe_sync_with_progress] at h
    · intro h
      subst h
      rfl
  · intro st audio language nCpus outcome hne hmissing
    rcases st with ⟨hasCtx, lm, af⟩
    cases audio with
    | nil => exact absurd rfl hne
    | cons a rest =>
      rcases hmissing with hc | hl
      · obtain rfl : hasCtx = false := hc
        simp [transcribe_sync_with_progress]
      · obtain rfl : lm = none := hl
        cases hasCtx <;> simp [transcribe_sync_with_progress]
  · intro st audio language nCpus outcome m hne hc hl
    rcases st with ⟨hasCtx, lm, af⟩
    obtain rfl : hasCtx = true := hc
    obtain rfl : lm = some m := hl
    cases audio with
    | nil => exact absurd rfl hne
    | cons a rest =>
      rcases outcome with ⟨cs, fl⟩
      rcases cs with e | u
      · simp [transcribe_sync_with_progress]
      · cases u
        rcases fl with e2 | segs <;> simp [transcribe_sync_with_progress]
  · intro st audio language nCpus outcome m segments hne hc hl hcs hf
    rcases st with ⟨hasCtx, lm, af⟩
    obtain rfl : hasCtx = true := hc
    obtain rfl : lm = some m := hl
    rcases outcome with ⟨cs, fl⟩
    obtain rfl : cs = .ok () := hcs
    obtain rfl : fl = .ok segments := hf
    cases audio with
    | nil => exact absurd rfl hne
    | cons a rest => simp [transcribe_sync_with_progress]

/-- Witness for claim C6 at a concrete engine state and inference
outcome: one audio sample, a loaded base model, eight CPUs, and segments
`" hello", none, "world "` produce `Ok "hello world"` with the abort flag
cleared, while an empty buffer yields `NoAudioCaptured`. -/
theorem srctauri_C6_witness :
    (transcribe_sync_with_progress ⟨true, some .base, true⟩ [0.0] .english 8
        ⟨.ok (), .ok [some " hello", none, some " world "]⟩).1
      = .ok "hello world" ∧
    (transcribe_sync_with_progress ⟨true, some .base, true⟩ [0.0] .english 8
        ⟨.ok (), .ok [some " hello", none, some " world "]⟩).2.1.abort_flag
      = false ∧
    (transcribe_sync_with_progress ⟨true, some .base, true⟩ [] .english 8
        ⟨.ok (), .ok []⟩).1 = .error .noAudioCaptured := by
  refine ⟨?_, ?_, ?_⟩
  · have h := srctauri_C6_transcribe.2.2.2 ⟨true, some .base, true⟩ [0.0] .english 8
      ⟨.ok (), .ok [some " hello", none, some " world "]⟩ .base
      [some " hello", none, some " world "] (by simp) rfl rfl rfl rfl
    rw [h]
    exact congrArg Except.ok (by decide)
  · exact srctauri_C6_transcribe.2.2.1 ⟨true, some .base, true⟩ [0.0] .english 8
      ⟨.ok (), .ok [some " hello", none, some " world "]⟩ .base (by simp) rfl rfl
  · exact (srctauri_C6_transcribe.1 ⟨true, some .base, true⟩ [] .english 8
      ⟨.ok (), .ok []⟩).mpr rfl

end SrcTauri

namespace SrcTauri

/-- Claim C7 (confirmed): `no_speech_threshold()` returns 0.0 for the
small English-only variant and 0.3 for every other of the nineteen
variants, and the parameter preparation of the transcription passes
exactly this per-model value as `no_speech_thold`. -/
theorem srctauri_C7_no_speech_threshold :
    (∀ (m : WhisperModel) (l : Language) (c : Nat),
      (buildFullParams m l c).no_speech_thold = m.no_speech_threshold) ∧
    WhisperModel.smallEn.no_speech_threshold = 0 ∧
    (∀ m : WhisperModel, m ≠ .smallEn → m.no_speech_threshold = 3 / 10) := by
  refine ⟨fun m l c => rfl, rfl, ?_⟩
  intro m h
  cases m <;> simp_all [WhisperModel.no_speech_threshold]

/-- Witness for claim C7: the medium multilingual model is not the small
English model and gets threshold 0.3; the small English model gets 0.0;
the parameters built for a transcription with the small English model
carry exactly 0.0. -/
theorem srctauri_C7_witness :
    WhisperModel.medium.no_speech_threshold = 3 / 10 ∧
    (buildFullParams .smallEn .english 8).no_speech_thold = 0 := by
  refine ⟨srctauri_C7_no_speech_threshold.2.2 .medium (by decide), ?_⟩
  rw [srctauri_C7_no_speech_threshold.1 .smallEn .english 8]
  exact srctauri_C7_no_speech_threshold.2.1

end SrcTauri

namespace Flowdictate

/-- Claim C10 (confirmed): `PasteService::paste` with the empty string
returns `Ok(())` immediately and has no effect — the world (clipboard
included) is unchanged and no effect (clipboard read/write, keystroke,
accessibility prompt, or scheduled restore) is performed. -/
theorem flowdictate_C10_paste_empty :
    ∀ w : PasteWorld, paste w "" = (.ok (), w, []) := by
  intro w
  rfl

end Flowdictate


namespace SrcTauri

/-- The streaming loop never touches the final model file. -/
theorem streamChunks_finalPresent (chunks : List (Except String (List Nat)))
    (w : Option Nat) (total d : Nat) (fs : ModelFs) :
    (streamChunks chunks w total d fs).2.1.finalPresent = fs.finalPresent := by
  induction chunks generalizing w d fs with
  | nil => rfl
  | cons c rest ih =>
    cases c with
    | error e => rfl
    | ok chunk =>
      by_cases hw : w = some 0
      · simp [streamChunks, hw]
      · simp only [streamChunks, if_neg hw]
        exact ih _ _ _

/-- The streaming loop never deletes the `.tmp` file. -/
theorem streamChunks_tmpPresent (chunks : List (Except String (List Nat)))
    (w : Option Nat) (total d : Nat) (fs : ModelFs) :
    (streamChunks chunks w total d fs).2.1.tmpPresent = fs.tmpPresent := by
  induction chunks generalizing w d fs with
  | nil => rfl
  | cons c rest ih =>
    cases c with
    | error e => rfl
    | ok chunk =>
      by_cases hw : w = some 0
      · simp [streamChunks, hw]
      · simp only [streamChunks, if_neg hw]
        exact ih _ _ _

/-- Every error produced by the streaming loop is a
`ModelDownloadFailed`. -/
theorem streamChunks_error_shape (chunks : List (Except String (List Nat)))
    (w : Option Nat) (total d : Nat) (fs : ModelFs) (e : DictationError)
    (h : (streamChunks chunks w total d fs).1 = .error e) :
    ∃ msg, e = .modelDownloadFailed msg := by
  induction chunks generalizing w d fs with
  | nil => exact Except.noConfusion h
  | cons c rest ih =>
    cases c with
    | error msg =>
      exact ⟨"Download error", (Except.error.inj h).symm⟩
    | ok chunk =>
      by_cases hw : w = some 0
      · rw [streamChunks, if_pos hw] at h
        exact ⟨"Write error", (Except.error.inj h).symm⟩
      · rw [streamChunks, if_neg hw] at h
        exact ih _ _ _ h

/-- A stream of successful chunks with no write failure succeeds. -/
theorem streamChunks_map_ok_fst (bs : List (List Nat)) (total d : Nat)
    (fs : ModelFs) :
    (streamChunks (bs.map Except.ok) none total d fs).1 = .ok () := by
  induction bs generalizing d fs with
  | nil => rfl
  | cons b rest ih =>
    simp only [List.map_cons, streamChunks, reduceCtorEq, if_false]
    exact ih _ _

/-- A stream of successful chunks reports cumulative progress
`(downloaded, total)` once per chunk. -/
theorem streamChunks_map_ok_progress (bs : List (List Nat)) (total d : Nat)
    (fs : ModelFs) :
    (streamChunks (bs.map Except.ok) none total d fs).2.2
      = expectedProgress total d bs := by
  induction bs generalizing d fs with
  | nil => rfl
  | cons b rest ih =>
    simp only [List.map_cons, streamChunks, reduceCtorEq, if_false,
      expectedProgress, Option.map_none']
    rw [ih]

/-- Claim C8, counterexample to the claim as stated: with the model file
and the `.tmp` file both absent, a failing HTTP request returns
`ModelDownloadFailed` but leaves no `.tmp` file behind — the failure
occurred before the `.tmp` file was ever created, so "on any failure the
.tmp file is left behind" is false. -/
theorem srctauri_C8_counterexample :
    ¬ claimC8FailureAsStated ∧
    (download_model ⟨true, false, true, none, [], true, none, true, true⟩
      ⟨false, false, []⟩).1 = .error (.modelDownloadFailed "Download failed") ∧
    (download_model ⟨true, false, true, none, [], true, none, true, true⟩
      ⟨false, false, []⟩).2.1.tmpPresent = false := by
  refine ⟨?_, rfl, rfl⟩
  intro h
  have hc := (h ⟨true, false, true, none, [], true, none, true, true⟩
    ⟨false, false, []⟩ rfl rfl (.modelDownloadFailed "Download failed") rfl).2.2
  exact absurd hc (by decide)


/-- Unfolds `download_model` on the fresh-download path: with the final
file absent and the directory, request, status and temp-file steps all
succeeding, the run is the streaming loop followed by flush and
rename. -/
theorem download_model_stream_eq (cl : Option Nat)
    (cks : List (Except String (List Nat))) (wf : Option Nat) (fo ro : Bool)
    (fs : ModelFs) (h1 : fs.finalPresent = false) :
    download_model ⟨true, true, true, cl, cks, true, wf, fo, ro⟩ fs
      = match streamChunks cks wf (cl.getD 0) 0
          { fs with tmpPresent := true, tmpContent := [] } with
        | (.error e, fs', progress) => (.error e, fs', progress)
        | (.ok (), fs', progress) =>
          if (!fo) = true then
            (.error (.modelDownloadFailed "Flush error"), fs', progress)
          else if (!ro) = true then
            (.error (.modelDownloadFailed "Failed to rename temp file"),
              fs', progress)
          else
            (.ok (), { finalPresent := true, tmpPresent := false,
                       tmpContent := [] }, progress) := by
  rw [download_model, if_neg (by rw [h1]; exact Bool.false_ne_true)]
  rfl

/-- Claim C8 (amended): `download_model` returns immediately with no
filesystem change and no progress call when the model file is already
present; otherwise it streams the body only into the `.tmp` file,
reporting cumulative `(downloaded, total)` progress once per chunk, and
renames `.tmp` to the final filename only after the complete body has
been written and flushed, so that on success the final file exists and
`.tmp` is gone; every failure returns `ModelDownloadFailed` and never
creates the final file, and when the failure occurs after the `.tmp` file
was created (stream error, write error, flush error, rename error) the
`.tmp` file is left behind — failures before that point leave no `.tmp`
file. -/
theorem srctauri_C8_download :
    (∀ (env : DownloadEnv) (fs : ModelFs), fs.finalPresent = true →
      download_model env fs = (.ok (), fs, [])) ∧
    (∀ (env : DownloadEnv) (fs : ModelFs) (e : DictationError),
      (download_model env fs).1 = .error e →
      (∃ msg, e = .modelDownloadFailed msg) ∧
      (download_model env fs).2.1.finalPresent = fs.finalPresent) ∧
    (∀ (env : DownloadEnv) (fs : ModelFs) (e : DictationError),
      env.createDirOk = true → env.sendOk = true → env.statusSuccess = true →
      env.createFileOk = true →
      (download_model env fs).1 = .error e →
      (download_model env fs).2.1.tmpPresent = true) ∧
    (∀ (env : DownloadEnv) (fs : ModelFs), fs.finalPresent = false →
      (download_model env fs).1 = .ok () →
      (download_model env fs).2.1.finalPresent = true ∧
      (download_model env fs).2.1.tmpPresent = false) ∧
    (∀ (env : DownloadEnv) (fs : ModelFs) (bs : List (List Nat)),
      fs.finalPresent = false → env.createDirOk = true → env.sendOk = true →
      env.statusSuccess = true → env.createFileOk = true →
      env.writeFailAt = none → env.chunks = bs.map .ok →
      env.flushOk = true → env.renameOk = true →
      download_model env fs
        = (.ok (), ⟨true, false, []⟩,
           expectedProgress (env.contentLength.getD 0) 0 bs)) := by
  refine ⟨?_, ?_, ?_, ?_, ?_⟩
  · intro env fs h
    simp [download_model, h]
  · intro env fs e h
    rcases env with ⟨cd, so, ss, cl, cks, cf, wf, fo, ro⟩
    by_cases h1 : fs.finalPresent
    · rw [download_model, if_pos h1] at h
      exact Except.noConfusion h
    · have h1f : fs.finalPresent = false := by
        simpa using h1
      cases cd with
      | false =>
        rw [download_model, if_neg h1] at h ⊢
        exact ⟨⟨_, (Except.error.inj h).symm⟩, rfl⟩
      | true =>
        cases so with
        | false =>
          rw [download_model, if_neg h1] at h ⊢
          exact ⟨⟨_, (Except.error.inj h).symm⟩, rfl⟩
        | true =>
          cases ss with
          | false =>
            rw [download_model, if_neg h1] at h ⊢
            exact ⟨⟨_, (Except.error.inj h).symm⟩, rfl⟩
          | true =>
            cases cf with
            | false =>
              rw [download_model, if_neg h1] at h ⊢
              exact ⟨⟨_, (Except.error.inj h).symm⟩, rfl⟩
            | true =>
              rw [download_model_stream_eq cl cks wf fo ro fs h1f] at h ⊢
              rcases hsc : streamChunks cks wf (cl.getD 0) 0
                  { fs with tmpPresent := true, tmpContent := [] }
                with ⟨r, fs', prog⟩
              rw [hsc] at h
              have hfp : fs'.finalPresent = fs.finalPresent := by
                have hx := streamChunks_finalPresent cks wf (cl.getD 0) 0
                  { fs with tmpPresent := true, tmpContent := [] }
                rw [hsc] at hx
                exact hx
              cases r with
              | error e2 =>
                have he := streamChunks_error_shape cks wf (cl.getD 0) 0
                  { fs with tmpPresent := true, tmpContent := [] } e2
                  (by rw [hsc])
                exact ⟨(Except.error.inj h) ▸ he, hfp⟩
              | ok u =>
                cases u
                cases fo with
                | false => exact ⟨⟨_, (Except.error.inj h).symm⟩, hfp⟩
                | true =>
                  cases ro with
                  | false => exact ⟨⟨_, (Except.error.inj h).symm⟩, hfp⟩
                  | true => exact Except.noConfusion h
  · intro env fs e h2 h3 h4 h5 h
    rcases env with ⟨cd, so, ss, cl, cks, cf, wf, fo, ro⟩
    obtain rfl : cd = true := h2
    obtain rfl : so = true := h3
    obtain rfl : ss = true := h4
    obtain rfl : cf = true := h5
    by_cases h1 : fs.finalPresent
    · rw [download_model, if_pos h1] at h
      exact Except.noConfusion h
    · have h1f : fs.finalPresent = false := by
        simpa using h1
      rw [download_model_stream_eq cl cks wf fo ro fs h1f] at h ⊢
      rcases hsc : streamChunks cks wf (cl.getD 0) 0
          { fs with tmpPresent := true, tmpContent := [] }
        with ⟨r, fs', prog⟩
      rw [hsc] at h
      have htp : fs'.tmpPresent = true := by
        have hx := streamChunks_tmpPresent cks wf (cl.getD 0) 0
          { fs with tmpPresent := true, tmpContent := [] }
        rw [hsc] at hx
        exact hx
      cases r with
      | error e2 => exact htp
      | ok u =>
        cases u
        cases fo with
        | false => exact htp
        | true =>
          cases ro with
          | false => exact htp
          | true => exact Except.noConfusion h
  · intro env fs h1 h
    rcases env with ⟨cd, so, ss, cl, cks, cf, wf, fo, ro⟩
    cases cd with
    | false =>
      rw [download_model, if_neg (by rw [h1]; exact Bool.false_ne_true)] at h
      exact Except.noConfusion h
    | true =>
      cases so with
      | false =>
        rw [download_model, if_neg (by rw [h1]; exact Bool.false_ne_true)] at h
        exact Except.noConfusion h
      | true =>
        cases ss with
        | false =>
          rw [download_model, if_neg (by rw [h1]; exact Bool.false_ne_true)] at h
          exact Except.noConfusion h
        | true =>
          cases cf with
          | false =>
            rw [download_model, if_neg (by rw [h1]; exact Bool.false_ne_true)] at h
            exact Except.noConfusion h
          | true =>
            rw [download_model_stream_eq cl cks wf fo ro fs h1] at h ⊢
            rcases hsc : streamChunks cks wf (cl.getD 0) 0
                { fs with tmpPresent := true, tmpContent := [] }
              with ⟨r, fs', prog⟩
            rw [hsc] at h
            cases r with
            | error e2 => exact Except.noConfusion h
            | ok u =>
              cases u
              cases fo with
              | false => exact Except.noConfusion h
              | true =>
                cases ro with
                | false => exact Except.noConfusion h
                | true => exact ⟨rfl, rfl⟩
  · intro env fs bs h1 h2 h3 h4 h5 hw hch h6 h7
    rcases env with ⟨cd, so, ss, cl, cks, cf, wf, fo, ro⟩
    obtain rfl : cd = true := h2
    obtain rfl : so = true := h3
    obtain rfl : ss = true := h4
    obtain rfl : cf = true := h5
    obtain rfl : wf = none := hw
    obtain rfl : fo = true := h6
    obtain rfl : ro = true := h7
    obtain rfl : cks = bs.map Except.ok := hch
    rw [download_model_stream_eq cl (bs.map Except.ok) none true true fs h1]
    rcases hsc : streamChunks (bs.map Except.ok) none (cl.getD 0) 0
        { fs with tmpPresent := true, tmpContent := [] }
      with ⟨r, fs', prog⟩
    have hr : r = .ok () := by
      have hx := streamChunks_map_ok_fst bs (cl.getD 0) 0
        { fs with tmpPresent := true, tmpContent := [] }
      rw [hsc] at hx
      cases r with
      | error e => exact Except.noConfusion hx
      | ok u => cases u; rfl
    have hp : prog = expectedProgress (cl.getD 0) 0 bs := by
      have hx := streamChunks_map_ok_progress bs (cl.getD 0) 0
        { fs with tmpPresent := true, tmpContent := [] }
      rw [hsc] at hx
      exact hx
    subst hr hp
    rfl

/-- Witness for claim C8's amended theorem: a present model file returns
at once with no progress; a two-chunk download of bytes `[1,2]` then
`[3]` with total 3 succeeds, reports progress `(2,3), (3,3)`, creates the
final file and removes `.tmp`. -/
theorem srctauri_C8_witness :
    download_model ⟨true, true, true, some 3, [], true, none, true, true⟩
      ⟨true, false, []⟩ = (.ok (), ⟨true, false, []⟩, []) ∧
    download_model
      ⟨true, true, true, some 3, [.ok [1, 2], .ok [3]], true, none, true, true⟩
      ⟨false, false, []⟩
      = (.ok (), ⟨true, false, []⟩, [(2, 3), (3, 3)]) := by
  constructor
  · exact srctauri_C8_download.1
      ⟨true, true, true, some 3, [], true, none, true, true⟩ ⟨true, false, []⟩ rfl
  · have h := srctauri_C8_download.2.2.2.2
      ⟨true, true, true, some 3, [.ok [1, 2], .ok [3]], true, none, true, true⟩
      ⟨false, false, []⟩ [[1, 2], [3]] rfl rfl rfl rfl rfl rfl rfl rfl rfl
    rw [h]
    rfl

end SrcTauri

namespace Flowdictate

/-- Looking up a key just inserted yields the inserted value. -/
theorem lookupKey_insertKey_self (k : String) (v : JVal) (m : JObj) :
    lookupKey k (insertKey k v m) = some v := by
  induction m with
  | nil => simp [insertKey, lookupKey]
  | cons kv rest ih =>
    by_cases h : kv.1 = k
    · simp [insertKey, lookupKey, h]
    · simp [insertKey, lookupKey, h, ih]

/-- Inserting under a different key does not change a lookup. -/
theorem lookupKey_insertKey_other (k k' : String) (v : JVal) (m : JObj)
    (h : k' ≠ k) :
    lookupKey k (insertKey k' v m) = lookupKey k m := by
  induction m with
  | nil => simp [insertKey, lookupKey, h]
  | cons kv rest ih =>
    by_cases h2 : kv.1 = k'
    · simp [insertKey, lookupKey, h2, h]
    · simp only [insertKey, if_neg h2, lookupKey]
      by_cases h3 : kv.1 = k
      · simp [h3]
      · simp [h3, ih]

/-- Serde round-trip for `Language`. -/
theorem language_fromJson_toJson (l : Language) :
    Language.fromJson l.toJson = some l := by
  cases l <;> rfl

/-- Serde round-trip for `WhisperModel`. -/
theorem whisperModel_fromJson_toJson (m : WhisperModel) :
    WhisperModel.fromJson m.toJson = some m := by
  cases m <;> rfl

/-- Serde round-trip for `HotkeyMode`. -/
theorem hotkeyMode_fromJson_toJson (m : HotkeyMode) :
    HotkeyMode.fromJson m.toJson = some m := by
  cases m <;> rfl

/-- The merge loop of `store_save`, unfolded to its seven inserts. -/
theorem store_save_eq (s : Settings) (file : Option JObj) :
    store_save s file
      = insertKey "hotkey" (.jstr s.hotkey)
          (insertKey "auto_select_model" (.jbool s.auto_select_model)
            (insertKey "auto_paste" (.jbool s.auto_paste)
              (insertKey "show_overlay" (.jbool s.show_overlay)
                (insertKey "hotkey_mode" s.hotkey_mode.toJson
                  (insertKey "whisper_model" s.whisper_model.toJson
                    (insertKey "language" s.language.toJson
                      (file.getD []))))))) := rfl

/-- Claim C9 (confirmed): saving settings and loading them back yields
the same settings value (the saved file carries every field, so no
per-field default is needed), and `store_save` preserves every key of the
existing settings file that is not a `Settings` field, thanks to the
read-merge-write. -/
theorem flowdictate_C9_settings_roundtrip :
    (∀ (s : Settings) (file : Option JObj),
      store_load (some (store_save s file)) = s) ∧
    (∀ (s : Settings) (file : Option JObj) (k : String) (v : JVal),
      k ∉ settingsKeys → lookupKey k (file.getD []) = some v →
      lookupKey k (store_save s file) = some v) := by
  constructor
  · intro s file
    have hlang : lookupKey "language" (store_save s file)
        = some s.language.toJson := by
      rw [store_save_eq,
        lookupKey_insertKey_other _ _ _ _ (by decide),
        lookupKey_insertKey_other _ _ _ _ (by decide),
        lookupKey_insertKey_other _ _ _ _ (by decide),
        lookupKey_insertKey_other _ _ _ _ (by decide),
        lookupKey_insertKey_other _ _ _ _ (by decide),
        lookupKey_insertKey_other _ _ _ _ (by decide),
        lookupKey_insertKey_self]
    have hmodel : lookupKey "whisper_model" (store_save s file)
        = some s.whisper_model.toJson := by
      rw [store_save_eq,
        lookupKey_insertKey_other _ _ _ _ (by decide),
        lookupKey_insertKey_other _ _ _ _ (by decide),
        lookupKey_insertKey_other _ _ _ _ (by decide),
        lookupKey_insertKey_other _ _ _ _ (by decide),
        lookupKey_insertKey_other _ _ _ _ (by decide),
        lookupKey_insertKey_self]
    have hmode : lookupKey "hotkey_mode" (store_save s file)
        = some s.hotkey_mode.toJson := by
      rw [store_save_eq,
        lookupKey_insertKey_other _ _ _ _ (by decide),
        lookupKey_insertKey_other _ _ _ _ (by decide),
        lookupKey_insertKey_other _ _ _ _ (by decide),
        lookupKey_insertKey_other _ _ _ _ (by decide),
        lookupKey_insertKey_self]
    have hoverlay : lookupKey "show_overlay" (store_save s file)
        = some (.jbool s.show_overlay) := by
      rw [store_save_eq,
        lookupKey_insertKey_other _ _ _ _ (by decide),
        lookupKey_insertKey_other _ _ _ _ (by decide),
        lookupKey_insertKey_other _ _ _ _ (by decide),
        lookupKey_insertKey_self]
    have hpaste : lookupKey "auto_paste" (store_save s file)
        = some (.jbool s.auto_paste) := by
      rw [store_save_eq,
        lookupKey_insertKey_other _ _ _ _ (by decide),
        lookupKey_insertKey_other _ _ _ _ (by decide),
        lookupKey_insertKey_self]
    have hselect : lookupKey "auto_select_model" (store_save s file)
        = some (.jbool s.auto_select_model) := by
      rw [store_save_eq,
        lookupKey_insertKey_other _ _ _ _ (by decide),
        lookupKey_insertKey_self]
    have hhotkey : lookupKey "hotkey" (store_save s file)
        = some (.jstr s.hotkey) := by
      rw [store_save_eq, lookupKey_insertKey_self]
    have hparse : Settings.fromJson (store_save s file) = some s := by
      rw [Settings.fromJson]
      simp only [parseField, hlang, hmodel, hmode, hoverlay, hpaste, hselect,
        hhotkey, language_fromJson_toJson, whisperModel_fromJson_toJson,
        hotkeyMode_fromJson_toJson, boolFromJson, strFromJson, Option.bind_some,
        Option.bind_eq_bind]
      rfl
    rw [store_load, hparse]
    rfl
  · intro s file k v hk hv
    have hks : k ≠ "language" ∧ k ≠ "whisper_model" ∧ k ≠ "hotkey_mode" ∧
        k ≠ "show_overlay" ∧ k ≠ "auto_paste" ∧ k ≠ "auto_select_model" ∧
        k ≠ "hotkey" := by
      simpa [settingsKeys] using hk
    rw [store_save_eq,
      lookupKey_insertKey_other _ _ _ _ (Ne.symm hks.2.2.2.2.2.2),
      lookupKey_insertKey_other _ _ _ _ (Ne.symm hks.2.2.2.2.2.1),
      lookupKey_insertKey_other _ _ _ _ (Ne.symm hks.2.2.2.2.1),
      lookupKey_insertKey_other _ _ _ _ (Ne.symm hks.2.2.2.1),
      lookupKey_insertKey_other _ _ _ _ (Ne.symm hks.2.2.1),
      lookupKey_insertKey_other _ _ _ _ (Ne.symm hks.2.1),
      lookupKey_insertKey_other _ _ _ _ (Ne.symm hks.1)]
    exact hv

/-- Witness for claim C9 at a concrete settings value and file: saving
Swedish push-to-talk settings over a file carrying the foreign key
`hasCompletedOnboarding` loads back the same settings and keeps the
foreign key. -/
theorem flowdictate_C9_witness :
    store_load (some (store_save
      { Settings.default with language := .swedish }
      (some [("hasCompletedOnboarding", .jbool true)])))
      = { Settings.default with language := .swedish } ∧
    lookupKey "hasCompletedOnboarding"
      (store_save { Settings.default with language := .swedish }
        (some [("hasCompletedOnboarding", .jbool true)]))
      = some (.jbool true) := by
  constructor
  · exact flowdictate_C9_settings_roundtrip.1
      { Settings.default with language := .swedish }
      (some [("hasCompletedOnboarding", .jbool true)])
  · exact flowdictate_C9_settings_roundtrip.2
      { Settings.default with language := .swedish }
      (some [("hasCompletedOnboarding", .jbool true)])
      "hasCompletedOnboarding" (.jbool true) (by decide) rfl

end Flowdictate
